import Mathlib

/-!
Shallow embedding of `src/ble_environment.py` and `src/gpio.py`
(akilmarshall/esp32-ble-demo).

The BLE stack is modelled as a characteristic value store plus a trace of
the calls the firmware makes into the stack (and onto the GPIO pins).
The `BLEEnvironment` object state is the four captured attribute handles
plus the connection set; the Python `set` is modelled as a duplicate-free
list whose order stands for the set's iteration order.  Python exceptions
(`set.remove` raising `KeyError`, `struct.pack` raising `struct.error`)
are modelled by `Option`: `none` means the call raised.
-/

/-- One call from the firmware into the BLE stack or onto a GPIO pin. -/
inductive Call where
  | gattsWrite (valueHandle : Nat) (data : List Nat)
  | gattsNotify (connHandle : Nat) (valueHandle : Nat)
  | gattsIndicate (connHandle : Nat) (valueHandle : Nat)
  | gapAdvertise (intervalUs : Nat) (advData : List Nat)
  | pinOn (pin : Nat)
  | pinOff (pin : Nat)
  | sleepMs (ms : Nat)
deriving DecidableEq

/-- State of the modelled BLE stack: the value stored in each GATT
characteristic (indexed by value handle), and the trace of calls made so
far. -/
structure BLE where
  chars : Nat → List Nat
  trace : List Call

/-- `ble.gatts_write(value_handle, data)`: store the bytes for the
characteristic and record the call. -/
def gatts_write (ble : BLE) (valueHandle : Nat) (data : List Nat) : BLE :=
  { chars := fun h => if h = valueHandle then data else ble.chars h,
    trace := ble.trace ++ [Call.gattsWrite valueHandle data] }

/-- `ble.gatts_read(value_handle)`: current bytes of the characteristic. -/
def gatts_read (ble : BLE) (valueHandle : Nat) : List Nat :=
  ble.chars valueHandle

/-- `ble.gatts_notify(conn_handle, value_handle)`. -/
def gatts_notify (ble : BLE) (connHandle valueHandle : Nat) : BLE :=
  { ble with trace := ble.trace ++ [Call.gattsNotify connHandle valueHandle] }

/-- `ble.gatts_indicate(conn_handle, value_handle)`. -/
def gatts_indicate (ble : BLE) (connHandle valueHandle : Nat) : BLE :=
  { ble with trace := ble.trace ++ [Call.gattsIndicate connHandle valueHandle] }

/-- `ble.gap_advertise(interval_us, adv_data=payload)`. -/
def gap_advertise (ble : BLE) (intervalUs : Nat) (advData : List Nat) : BLE :=
  { ble with trace := ble.trace ++ [Call.gapAdvertise intervalUs advData] }

/-- `_IRQ_CENTRAL_CONNECT = const(1)`. -/
def IRQ_CENTRAL_CONNECT : Nat := 1

/-- `_IRQ_CENTRAL_DISCONNECT = const(2)`. -/
def IRQ_CENTRAL_DISCONNECT : Nat := 2

/-- `_IRQ_GATTS_INDICATE_DONE = const(20)`. -/
def IRQ_GATTS_INDICATE_DONE : Nat := 20

/-- Object state of a `BLEEnvironment` instance: the four attribute
handles unpacked from service registration, the advertising payload, and
the connection set (`self._connections`, a Python `set`, modelled as a
duplicate-free list in iteration order). -/
structure BLEEnvironment where
  temp_handle : Nat
  pressure_handle : Nat
  humidity_handle : Nat
  string_handle : Nat
  payload : List Nat
  connections : List Nat

/-- Python `set.add`: no-op when the element is already present. -/
def setAdd (l : List Nat) (x : Nat) : List Nat :=
  if x ∈ l then l else l ++ [x]

/-- `BLEEnvironment._advertise(interval_us=500000)`:
`self._ble.gap_advertise(interval_us, adv_data=self._payload)`. -/
def advertise (env : BLEEnvironment) (ble : BLE) (intervalUs : Nat) : BLE :=
  gap_advertise ble intervalUs env.payload

/-- `BLEEnvironment._irq(event, data)`, the BLE stack event callback.
`data` models the event payload tuple; for connect/disconnect its first
component is the connection handle, for indicate-done the components are
(conn_handle, value_handle, status).  `none` models a raised exception:
`self._connections.remove(conn_handle)` raises `KeyError` when the handle
is absent.  On disconnect the code re-arms advertising via
`self._advertise()` (default interval 500000). -/
def irq (env : BLEEnvironment) (ble : BLE) (event : Nat) (data : Nat × Nat × Nat) :
    Option (BLEEnvironment × BLE) :=
  if event = IRQ_CENTRAL_CONNECT then
    some ({ env with connections := setAdd env.connections data.1 }, ble)
  else if event = IRQ_CENTRAL_DISCONNECT then
    if data.1 ∈ env.connections then
      let env1 := { env with connections := env.connections.erase data.1 }
      some (env1, advertise env1 ble 500000)
    else
      none
  else
    -- `_IRQ_GATTS_INDICATE_DONE` only unpacks `data`; all other event
    -- kinds fall through the if/elif chain: no state change either way.
    some (env, ble)

/-- Little-endian 4-byte encoding of a natural number below `2 ^ 32`. -/
def le4 (n : Nat) : List Nat :=
  [n % 256, n / 256 % 256, n / 256 ^ 2 % 256, n / 256 ^ 3 % 256]

/-- `struct.pack("<i", v)` for an integer `v`: the 4-byte little-endian
two's-complement encoding; raises `struct.error` (modelled `none`) when
`v` is outside the signed 32-bit range. -/
def structPackI (v : Int) : Option (List Nat) :=
  if -(2 ^ 31) ≤ v ∧ v < 2 ^ 31 then some (le4 (v % 2 ^ 32).toNat) else none

/-- The `for conn_handle in self._connections:` loop body of
`set_environment_data`: per connection, three `gatts_notify` calls when
`notify` is set, then three `gatts_indicate` calls when `indicate` is
set, characteristic order temperature, pressure, humidity. -/
def notifyLoop (env : BLEEnvironment) (notify indicate : Bool) :
    List Nat → BLE → BLE
  | [], ble => ble
  | conn :: rest, ble =>
    let ble1 :=
      if notify then
        gatts_notify
          (gatts_notify (gatts_notify ble conn env.temp_handle) conn env.pressure_handle)
          conn env.humidity_handle
      else ble
    let ble2 :=
      if indicate then
        gatts_indicate
          (gatts_indicate (gatts_indicate ble1 conn env.temp_handle) conn env.pressure_handle)
          conn env.humidity_handle
      else ble1
    notifyLoop env notify indicate rest ble2

/-- `BLEEnvironment.set_environment_data(temp, pressure, humidity, notify,
indicate)`: write the three packed values to their characteristics, then,
if `notify or indicate`, fan out to every tracked connection.  The method
assigns no attribute of `self`, so the object state is returned
unchanged. -/
def set_environment_data (env : BLEEnvironment) (ble : BLE)
    (temp pressure humidity : Int) (notify indicate : Bool) :
    Option (BLEEnvironment × BLE) := do
  let bt ← structPackI temp
  let ble1 := gatts_write ble env.temp_handle bt
  let bp ← structPackI pressure
  let ble2 := gatts_write ble1 env.pressure_handle bp
  let bh ← structPackI humidity
  let ble3 := gatts_write ble2 env.humidity_handle bh
  let ble4 :=
    if notify || indicate then notifyLoop env notify indicate env.connections ble3
    else ble3
  return (env, ble4)

/-- `gpio.blink(pin, delay=500)`: `pin.on(); sleep_ms(delay); pin.off();
sleep_ms(delay)` — the calls one blink makes. -/
def blink (pin : Nat) (delay : Nat) : List Call :=
  [Call.pinOn pin, Call.sleepMs delay, Call.pinOff pin, Call.sleepMs delay]

/-- `bytes('blink', 'utf-8')`. -/
def blinkBytes : List Nat := [98, 108, 105, 110, 107]

/-- `BLEEnvironment.read_act()`: read the string characteristic; when it
equals `b"blink"`, pulse pin 23 three times (`for _ in range(3): blink(p)`
with the default 500 ms delay); then clear the channel with
`struct.pack("<i", 0)`.  Assigns no attribute of `self`. -/
def read_act (env : BLEEnvironment) (ble : BLE) : Option (BLEEnvironment × BLE) := do
  let value := gatts_read ble env.string_handle
  let ble1 :=
    if value = blinkBytes then
      { ble with trace := ble.trace ++ (blink 23 500 ++ blink 23 500 ++ blink 23 500) }
    else ble
  let z ← structPackI 0
  return (env, gatts_write ble1 env.string_handle z)

/-- Replay a sequence of stack events through the `_irq` callback.  Each
list entry is `(event, data)`; replay stops with `none` as soon as one
event raises. -/
def replay (env : BLEEnvironment) (ble : BLE) :
    List (Nat × Nat × Nat × Nat) → Option (BLEEnvironment × BLE)
  | [] => some (env, ble)
  | e :: es => do
    let (env1, ble1) ← irq env ble e.1 e.2
    replay env1 ble1 es

/-- A concrete `BLEEnvironment` with distinct handles and an empty
connection set, as right after `__init__`. -/
def env0 : BLEEnvironment :=
  { temp_handle := 10, pressure_handle := 11, humidity_handle := 12,
    string_handle := 13, payload := [2, 1, 6], connections := [] }

/-- A concrete stack state with empty characteristics and an empty trace. -/
def ble0 : BLE := { chars := fun _ => [], trace := [] }

/-- `env0` with one tracked connection. -/
def env1 : BLEEnvironment := { env0 with connections := [5] }

/-! ## Specification-side functions (used only in theorem statements) -/

/-- The kind (connect or disconnect) of the last connect/disconnect event
about handle `h` in the sequence, if any. -/
def lastEvent (h : Nat) : List (Nat × Nat × Nat × Nat) → Option Nat
  | [] => none
  | e :: es =>
    match lastEvent h es with
    | some k => some k
    | none =>
      if (e.1 = IRQ_CENTRAL_CONNECT ∨ e.1 = IRQ_CENTRAL_DISCONNECT) ∧ e.2.1 = h then
        some e.1
      else none

/-- An event sequence is admissible from a given connection set when every
disconnect event's handle is in the set at the moment it is delivered. -/
def okSeq : List Nat → List (Nat × Nat × Nat × Nat) → Bool
  | _, [] => true
  | conns, e :: es =>
    if e.1 = IRQ_CENTRAL_CONNECT then okSeq (setAdd conns e.2.1) es
    else if e.1 = IRQ_CENTRAL_DISCONNECT then
      decide (e.2.1 ∈ conns) && okSeq (conns.erase e.2.1) es
    else okSeq conns es

/-- Number of events of kind `k` about handle `h` in a sequence. -/
def countKind (k h : Nat) (s : List (Nat × Nat × Nat × Nat)) : Nat :=
  s.countP fun e => e.1 == k && e.2.1 == h

/-- Number of `gatts_notify` calls in a trace. -/
def countNotify (tr : List Call) : Nat :=
  tr.countP fun c => match c with | Call.gattsNotify _ _ => true | _ => false

/-- Number of `gatts_indicate` calls in a trace. -/
def countIndicate (tr : List Call) : Nat :=
  tr.countP fun c => match c with | Call.gattsIndicate _ _ => true | _ => false

/-- Number of rising edges (`pin.on()` calls) in a trace: one per pulse. -/
def countPinOn (tr : List Call) : Nat :=
  tr.countP fun c => match c with | Call.pinOn _ => true | _ => false

/-- Number of `gap_advertise` calls in a trace. -/
def countAdvertise (tr : List Call) : Nat :=
  tr.countP fun c => match c with | Call.gapAdvertise _ _ => true | _ => false

/-- The value a byte list denotes when read little-endian. -/
def leVal (b : List Nat) : Nat :=
  b.foldr (fun x acc => x + 256 * acc) 0

/-- `b` is the 4-byte little-endian two's-complement encoding of the
integer `v`: four bytes, and the little-endian value is congruent to `v`
modulo `2 ^ 32`. -/
def isTwosComplLE (b : List Nat) (v : Int) : Prop :=
  b.length = 4 ∧ (∀ x ∈ b, x < 256) ∧ (leVal b : Int) % 2 ^ 32 = v % 2 ^ 32

/-- The four attribute handles captured at registration are pairwise
distinct (the stack returns one fresh handle per characteristic). -/
def handlesDistinct (env : BLEEnvironment) : Prop :=
  env.temp_handle ≠ env.pressure_handle ∧ env.temp_handle ≠ env.humidity_handle ∧
    env.pressure_handle ≠ env.humidity_handle ∧
    env.string_handle ≠ env.temp_handle ∧ env.string_handle ≠ env.pressure_handle ∧
      env.string_handle ≠ env.humidity_handle

/-- The calls `set_environment_data` sends to one connection: notify for
temperature, pressure, humidity when `notify` is set, then indicate for
the three in the same order when `indicate` is set. -/
def perConn (env : BLEEnvironment) (notify indicate : Bool) (conn : Nat) : List Call :=
  (if notify then
    [Call.gattsNotify conn env.temp_handle, Call.gattsNotify conn env.pressure_handle,
      Call.gattsNotify conn env.humidity_handle]
  else []) ++
  (if indicate then
    [Call.gattsIndicate conn env.temp_handle, Call.gattsIndicate conn env.pressure_handle,
      Call.gattsIndicate conn env.humidity_handle]
  else [])

/-! ## Helper lemmas -/

theorem structPackI_of_range (v : Int) (h1 : -(2 ^ 31) ≤ v) (h2 : v < 2 ^ 31) :
    structPackI v = some (le4 (v % 2 ^ 32).toNat) := by
  unfold structPackI
  rw [if_pos ⟨h1, h2⟩]

theorem notifyLoop_eq (env : BLEEnvironment) (n i : Bool) (conns : List Nat) (ble : BLE) :
    notifyLoop env n i conns ble =
      { chars := ble.chars, trace := ble.trace ++ conns.flatMap (perConn env n i) } := by
  induction conns generalizing ble with
  | nil => simp [notifyLoop]
  | cons c rest ih =>
    cases n <;> cases i <;>
      simp [notifyLoop, gatts_notify, gatts_indicate, perConn, ih, List.append_assoc]

/-- `set_environment_data` on in-range inputs: the exact resulting stack
state, as a function of the packed byte strings. -/
theorem set_environment_data_eq (env : BLEEnvironment) (ble : BLE)
    (t p h : Int) (n i : Bool)
    (ht1 : -(2 ^ 31) ≤ t) (ht2 : t < 2 ^ 31) (hp1 : -(2 ^ 31) ≤ p) (hp2 : p < 2 ^ 31)
    (hh1 : -(2 ^ 31) ≤ h) (hh2 : h < 2 ^ 31) :
    set_environment_data env ble t p h n i =
      some (env,
        { chars := fun vh =>
            if vh = env.humidity_handle then le4 (h % 2 ^ 32).toNat
            else if vh = env.pressure_handle then le4 (p % 2 ^ 32).toNat
            else if vh = env.temp_handle then le4 (t % 2 ^ 32).toNat
            else ble.chars vh,
          trace := ble.trace ++
            [Call.gattsWrite env.temp_handle (le4 (t % 2 ^ 32).toNat),
              Call.gattsWrite env.pressure_handle (le4 (p % 2 ^ 32).toNat),
              Call.gattsWrite env.humidity_handle (le4 (h % 2 ^ 32).toNat)] ++
            (if n || i then env.connections.flatMap (perConn env n i) else []) }) := by
  rw [set_environment_data, structPackI_of_range t ht1 ht2,
    structPackI_of_range p hp1 hp2, structPackI_of_range h hh1 hh2]
  cases hni : n || i <;>
    simp [hni, gatts_write, notifyLoop_eq, List.append_assoc]

theorem mem_setAdd (l : List Nat) (x h : Nat) : h ∈ setAdd l x ↔ h ∈ l ∨ h = x := by
  by_cases hx : x ∈ l
  · simp only [setAdd, if_pos hx]
    constructor
    · exact Or.inl
    · rintro (hm | rfl)
      · exact hm
      · exact hx
  · simp [setAdd, hx]

theorem setAdd_nodup (l : List Nat) (x : Nat) (hnd : l.Nodup) : (setAdd l x).Nodup := by
  by_cases hx : x ∈ l
  · simpa [setAdd, hx] using hnd
  · simp [setAdd, hx, List.nodup_append, hnd]

theorem irq_connect (env : BLEEnvironment) (ble : BLE) (d : Nat × Nat × Nat) :
    irq env ble 1 d =
      some ({ env with connections := setAdd env.connections d.1 }, ble) := rfl

theorem irq_disconnect_mem (env : BLEEnvironment) (ble : BLE) (d : Nat × Nat × Nat)
    (hm : d.1 ∈ env.connections) :
    irq env ble 2 d =
      some ({ env with connections := env.connections.erase d.1 },
        advertise { env with connections := env.connections.erase d.1 } ble 500000) := by
  simp [irq, IRQ_CENTRAL_CONNECT, IRQ_CENTRAL_DISCONNECT, hm]

theorem irq_disconnect_not_mem (env : BLEEnvironment) (ble : BLE) (d : Nat × Nat × Nat)
    (hm : d.1 ∉ env.connections) :
    irq env ble 2 d = none := by
  simp [irq, IRQ_CENTRAL_CONNECT, IRQ_CENTRAL_DISCONNECT, hm]

theorem irq_other (env : BLEEnvironment) (ble : BLE) (e : Nat) (d : Nat × Nat × Nat)
    (h1 : e ≠ 1) (h2 : e ≠ 2) :
    irq env ble e d = some (env, ble) := by
  simp [irq, IRQ_CENTRAL_CONNECT, IRQ_CENTRAL_DISCONNECT, h1, h2]

theorem replay_cons (env : BLEEnvironment) (ble : BLE) (e : Nat × Nat × Nat × Nat)
    (es : List (Nat × Nat × Nat × Nat)) :
    replay env ble (e :: es) = (irq env ble e.1 e.2).bind fun x => replay x.1 x.2 es := by
  rcases hirq : irq env ble e.1 e.2 with _ | ⟨env1, ble1⟩ <;> simp [replay, hirq]

/-- Replaying a sequence in which every disconnect handle is present at
delivery time never raises. -/
theorem replay_isSome_of_okSeq (s : List (Nat × Nat × Nat × Nat)) :
    ∀ env ble, okSeq env.connections s = true → (replay env ble s).isSome = true := by
  induction s with
  | nil => intro env ble _; simp [replay]
  | cons e es ih =>
    intro env ble hok
    rw [replay_cons]
    by_cases he1 : e.1 = 1
    · rw [he1, irq_connect]
      simp only [Option.some_bind]
      apply ih
      simpa [okSeq, IRQ_CENTRAL_CONNECT, IRQ_CENTRAL_DISCONNECT, he1] using hok
    · by_cases he2 : e.1 = 2
      · simp [okSeq, IRQ_CENTRAL_CONNECT, IRQ_CENTRAL_DISCONNECT, he1, he2] at hok
        rw [he2, irq_disconnect_mem env ble e.2 hok.1]
        simp only [Option.some_bind]
        apply ih
        simpa using hok.2
      · rw [irq_other env ble e.1 e.2 he1 he2]
        simp only [Option.some_bind]
        apply ih
        simpa [okSeq, IRQ_CENTRAL_CONNECT, IRQ_CENTRAL_DISCONNECT, he1, he2] using hok

/-- After a successful replay, a handle is in the connection set iff its
last connect/disconnect event in the sequence is a connect (or it was
present initially and the sequence never mentions it); duplicate-freeness
of the set is preserved. -/
theorem replay_mem (s : List (Nat × Nat × Nat × Nat)) :
    ∀ env ble env' ble', replay env ble s = some (env', ble') →
      env.connections.Nodup →
      env'.connections.Nodup ∧
        ∀ h, h ∈ env'.connections ↔
          (lastEvent h s = some IRQ_CENTRAL_CONNECT ∨
            (lastEvent h s = none ∧ h ∈ env.connections)) := by
  induction s with
  | nil =>
    intro env ble env' ble' hr hnd
    simp only [replay, Option.some_inj, Prod.mk.injEq] at hr
    obtain ⟨rfl, -⟩ := hr
    simp [lastEvent, hnd]
  | cons e es ih =>
    intro env ble env' ble' hr hnd
    rw [replay_cons] at hr
    by_cases he1 : e.1 = 1
    · rw [he1, irq_connect] at hr
      simp only [Option.some_bind] at hr
      obtain ⟨ihnd, ihmem⟩ := ih _ _ _ _ hr (setAdd_nodup _ _ hnd)
      refine ⟨ihnd, fun h => ?_⟩
      rw [ihmem h]
      rcases hles : lastEvent h es with _ | k <;>
        by_cases hh : e.2.1 = h <;>
          simp [lastEvent, hles, he1, hh, eq_comm, mem_setAdd, IRQ_CENTRAL_CONNECT,
            IRQ_CENTRAL_DISCONNECT] <;>
        (intros; exact absurd (by omega) hh)
    · by_cases he2 : e.1 = 2
      · by_cases hm : e.2.1 ∈ env.connections
        · rw [he2, irq_disconnect_mem env ble e.2 hm] at hr
          simp only [Option.some_bind] at hr
          obtain ⟨ihnd, ihmem⟩ := ih _ _ _ _ hr (hnd.erase _)
          refine ⟨ihnd, fun h => ?_⟩
          rw [ihmem h]
          rcases hles : lastEvent h es with _ | k <;>
            by_cases hh : e.2.1 = h <;>
              simp [lastEvent, hles, he1, he2, hh, eq_comm, hnd.mem_erase_iff,
                IRQ_CENTRAL_CONNECT, IRQ_CENTRAL_DISCONNECT] <;>
            try exact fun _ hc => hh hc.symm
        · rw [he2, irq_disconnect_not_mem env ble e.2 hm] at hr
          simp at hr
      · rw [irq_other env ble e.1 e.2 he1 he2] at hr
        simp only [Option.some_bind] at hr
        obtain ⟨ihnd, ihmem⟩ := ih _ _ _ _ hr hnd
        refine ⟨ihnd, fun h => ?_⟩
        rw [ihmem h]
        rcases hles : lastEvent h es with _ | k <;>
          simp [lastEvent, hles, he1, he2, IRQ_CENTRAL_CONNECT, IRQ_CENTRAL_DISCONNECT]

/-- A concrete event sequence used to instantiate the replay theorems. -/
def s0 : List (Nat × Nat × Nat × Nat) := [(1, 1, 0, 0), (1, 2, 0, 0), (2, 1, 0, 0)]

/-! ## Claim theorems -/

/-- C1 counterexample: the claim fails as stated.  A lone disconnect event
for handle 1 replayed from the empty connection set raises (`set.remove`
raises `KeyError`), so "no event raises" is false; and the sequence
connect 1, connect 1, disconnect 1 has strictly more connect than
disconnect events for handle 1 yet leaves the connection set empty, so
the counting characterization is false as well. -/
theorem c1_counterexample :
    replay env0 ble0 [(2, 1, 0, 0)] = none ∧
    ∃ env' ble',
      replay env0 ble0 [(1, 1, 0, 0), (1, 1, 0, 0), (2, 1, 0, 0)] = some (env', ble') ∧
        env'.connections = [] ∧
        countKind 1 1 [(1, 1, 0, 0), (1, 1, 0, 0), (2, 1, 0, 0)] = 2 ∧
        countKind 2 1 [(1, 1, 0, 0), (1, 1, 0, 0), (2, 1, 0, 0)] = 1 :=
  ⟨rfl, _, _, rfl, rfl, by decide, by decide⟩

/-- C1 (amended): replaying a finite sequence of connect/disconnect
events from an empty connection set raises no error provided every
disconnect event's handle is in the connection set when delivered, and
then the resulting connection set holds exactly the handles whose last
connect/disconnect event in the sequence is a connect. -/
theorem c1_replay_correct (env : BLEEnvironment) (ble : BLE)
    (s : List (Nat × Nat × Nat × Nat))
    (hempty : env.connections = [])
    (honly : ∀ e ∈ s, e.1 = IRQ_CENTRAL_CONNECT ∨ e.1 = IRQ_CENTRAL_DISCONNECT)
    (hok : okSeq [] s = true) :
    ∃ env' ble', replay env ble s = some (env', ble') ∧
      ∀ h, h ∈ env'.connections ↔ lastEvent h s = some IRQ_CENTRAL_CONNECT := by
  have hs : (replay env ble s).isSome = true := by
    apply replay_isSome_of_okSeq
    rw [hempty]
    exact hok
  rcases hrr : replay env ble s with _ | ⟨env', ble'⟩
  · rw [hrr] at hs
    simp at hs
  · obtain ⟨-, hmem⟩ :=
      replay_mem s env ble env' ble' hrr (by rw [hempty]; exact List.nodup_nil)
    refine ⟨env', ble', rfl, fun h => ?_⟩
    rw [hmem h]
    simp [hempty]

theorem c1_replay_correct_witness :
    env0.connections = [] ∧
      (∀ e ∈ s0, e.1 = IRQ_CENTRAL_CONNECT ∨ e.1 = IRQ_CENTRAL_DISCONNECT) ∧
      okSeq [] s0 = true ∧
      ∃ env' ble', replay env0 ble0 s0 = some (env', ble') ∧
        ∀ h, h ∈ env'.connections ↔ lastEvent h s0 = some IRQ_CENTRAL_CONNECT :=
  ⟨rfl, by decide, by decide, c1_replay_correct env0 ble0 s0 rfl (by decide) (by decide)⟩

/-- C2 counterexample: delivering a disconnect event for handle 7, which
is not in the (empty) connection set, raises `KeyError` (modelled by
`none`) instead of being a no-op, and in particular advertising is not
re-armed. -/
theorem c2_counterexample :
    (7 : Nat) ∉ env0.connections ∧ irq env0 ble0 IRQ_CENTRAL_DISCONNECT (7, 0, 0) = none :=
  ⟨by decide, rfl⟩

/-- C2 (amended): delivering a disconnect event for a handle not in the
connection set raises `KeyError` (`set.remove` on an absent element); the
callback aborts, so the connection set is not modified and advertising is
not re-armed. -/
theorem c2_disconnect_absent_raises (env : BLEEnvironment) (ble : BLE) (h a b : Nat)
    (hnot : h ∉ env.connections) :
    irq env ble IRQ_CENTRAL_DISCONNECT (h, a, b) = none :=
  irq_disconnect_not_mem env ble (h, a, b) hnot

theorem c2_disconnect_absent_raises_witness :
    (7 : Nat) ∉ env1.connections ∧ irq env1 ble0 IRQ_CENTRAL_DISCONNECT (7, 0, 0) = none :=
  ⟨by decide, c2_disconnect_absent_raises env1 ble0 7 0 0 (by decide)⟩

/-- C8: delivering a connect event for a handle already in the connection
set is a no-op, not an error — the state is returned unchanged — and the
connection set never acquires duplicates under any event. -/
theorem c8_connect_idempotent (env : BLEEnvironment) (ble : BLE) (h a b : Nat)
    (hmem : h ∈ env.connections) :
    irq env ble IRQ_CENTRAL_CONNECT (h, a, b) = some (env, ble) ∧
      ∀ e d env' ble', env.connections.Nodup → irq env ble e d = some (env', ble') →
        env'.connections.Nodup := by
  constructor
  · show irq env ble 1 (h, a, b) = some (env, ble)
    rw [irq_connect]
    rw [show setAdd env.connections h = env.connections from by simp [setAdd, hmem]]
  · intro e d env' ble' hnd hirq
    by_cases he1 : e = 1
    · subst he1
      rw [irq_connect, Option.some_inj, Prod.mk.injEq] at hirq
      obtain ⟨h1, -⟩ := hirq
      rw [← h1]
      exact setAdd_nodup _ _ hnd
    · by_cases he2 : e = 2
      · subst he2
        by_cases hm : d.1 ∈ env.connections
        · rw [irq_disconnect_mem env ble d hm, Option.some_inj, Prod.mk.injEq] at hirq
          obtain ⟨h1, -⟩ := hirq
          rw [← h1]
          exact hnd.erase _
        · rw [irq_disconnect_not_mem env ble d hm] at hirq
          exact absurd hirq (by simp)
      · rw [irq_other env ble e d he1 he2, Option.some_inj, Prod.mk.injEq] at hirq
        obtain ⟨h1, -⟩ := hirq
        rw [← h1]
        exact hnd

theorem c8_connect_idempotent_witness :
    (5 : Nat) ∈ env1.connections ∧
      irq env1 ble0 IRQ_CENTRAL_CONNECT (5, 0, 0) = some (env1, ble0) :=
  ⟨by decide, (c8_connect_idempotent env1 ble0 5 0 0 (by decide)).1⟩

/-- C9: every event kind other than connect and disconnect — including
indicate-done with any status value in its payload — is ignored by the
event callback: no state change and no error. -/
theorem c9_other_events_ignored (env : BLEEnvironment) (ble : BLE) (e : Nat)
    (d : Nat × Nat × Nat)
    (h1 : e ≠ IRQ_CENTRAL_CONNECT) (h2 : e ≠ IRQ_CENTRAL_DISCONNECT) :
    irq env ble e d = some (env, ble) :=
  irq_other env ble e d h1 h2

theorem countNotify_append (a b : List Call) :
    countNotify (a ++ b) = countNotify a + countNotify b :=
  List.countP_append _ _ _

theorem countIndicate_append (a b : List Call) :
    countIndicate (a ++ b) = countIndicate a + countIndicate b :=
  List.countP_append _ _ _

theorem countNotify_perConn (env : BLEEnvironment) (n i : Bool) (c : Nat) :
    countNotify (perConn env n i c) = if n then 3 else 0 := by
  cases n <;> cases i <;> simp [perConn, countNotify]

theorem countIndicate_perConn (env : BLEEnvironment) (n i : Bool) (c : Nat) :
    countIndicate (perConn env n i c) = if i then 3 else 0 := by
  cases n <;> cases i <;> simp [perConn, countIndicate]

theorem countNotify_flatMap (env : BLEEnvironment) (n i : Bool) (conns : List Nat) :
    countNotify (conns.flatMap (perConn env n i)) = (if n then 3 else 0) * conns.length := by
  induction conns with
  | nil => simp [countNotify]
  | cons c cs ih =>
    rw [List.flatMap_cons, countNotify_append, countNotify_perConn, ih]
    cases n <;> simp <;> ring

theorem countIndicate_flatMap (env : BLEEnvironment) (n i : Bool) (conns : List Nat) :
    countIndicate (conns.flatMap (perConn env n i)) = (if i then 3 else 0) * conns.length := by
  induction conns with
  | nil => simp [countIndicate]
  | cons c cs ih =>
    rw [List.flatMap_cons, countIndicate_append, countIndicate_perConn, ih]
    cases i <;> simp <;> ring

/-- The bytes `struct.pack("<i", v)` produces really are the 4-byte
little-endian two's-complement encoding of `v`. -/
theorem isTwosComplLE_le4 (v : Int) (h1 : -(2 ^ 31) ≤ v) (h2 : v < 2 ^ 31) :
    isTwosComplLE (le4 (v % 2 ^ 32).toNat) v := by
  have hnonneg : 0 ≤ v % 2 ^ 32 := Int.emod_nonneg v (by norm_num)
  refine ⟨rfl, ?_, ?_⟩
  · intro x hx
    simp only [le4, List.mem_cons, List.not_mem_nil, or_false] at hx
    rcases hx with rfl | rfl | rfl | rfl
    all_goals exact Nat.mod_lt _ (by norm_num)
  · have hval : leVal (le4 (v % 2 ^ 32).toNat) = (v % 2 ^ 32).toNat := by
      simp only [leVal, le4, List.foldr]
      omega
    rw [hval, Int.toNat_of_nonneg hnonneg]
    exact Int.emod_emod_of_dvd v (dvd_refl _)

theorem c9_other_events_ignored_witness :
    IRQ_GATTS_INDICATE_DONE ≠ IRQ_CENTRAL_CONNECT ∧
      IRQ_GATTS_INDICATE_DONE ≠ IRQ_CENTRAL_DISCONNECT ∧
      irq env1 ble0 IRQ_GATTS_INDICATE_DONE (5, 3, 99) = some (env1, ble0) :=
  ⟨by decide, by decide,
    c9_other_events_ignored env1 ble0 IRQ_GATTS_INDICATE_DONE (5, 3, 99)
      (by decide) (by decide)⟩

/-- C3: `read_act` with the command buffer holding `b"blink"` performs
exactly one action of three pulses of pin 23 and only afterwards clears
the buffer to four zero bytes; with any other buffer content it performs
zero pulses and still clears the buffer to four zero bytes. -/
theorem c3_read_act (env : BLEEnvironment) (ble : BLE) :
    ∃ ble', read_act env ble = some (env, ble') ∧
      gatts_read ble' env.string_handle = [0, 0, 0, 0] ∧
      ∃ act,
        ble'.trace = ble.trace ++ act ++ [Call.gattsWrite env.string_handle [0, 0, 0, 0]] ∧
        act = (if gatts_read ble env.string_handle = blinkBytes
          then blink 23 500 ++ blink 23 500 ++ blink 23 500 else []) ∧
        countPinOn act =
          (if gatts_read ble env.string_handle = blinkBytes then 3 else 0) := by
  have hz : structPackI 0 = some [0, 0, 0, 0] := by decide
  by_cases hb : gatts_read ble env.string_handle = blinkBytes
  · have hra : read_act env ble = some (env,
        gatts_write
          { ble with trace := ble.trace ++ (blink 23 500 ++ blink 23 500 ++ blink 23 500) }
          env.string_handle [0, 0, 0, 0]) := by
      simp [read_act, hb, hz]
    refine ⟨_, hra, ?_, blink 23 500 ++ blink 23 500 ++ blink 23 500, ?_, ?_, ?_⟩
    · simp [gatts_read, gatts_write]
    · simp [gatts_write, List.append_assoc]
    · simp [hb]
    · simp [hb]
      decide
  · have hra : read_act env ble = some (env, gatts_write ble env.string_handle [0, 0, 0, 0]) := by
      simp [read_act, hb, hz]
    refine ⟨_, hra, ?_, [], ?_, ?_, ?_⟩
    · simp [gatts_read, gatts_write]
    · simp [gatts_write]
    · simp [hb]
    · simp [hb, countPinOn]

/-- C4: with `notify=true` and `indicate=false`, publish sends exactly
3 × N notify calls — one per characteristic per connection, N the size of
the connection set — and zero indicate calls. -/
theorem c4_notify_count (env : BLEEnvironment) (ble : BLE) (t p h : Int)
    (ht1 : -(2 ^ 31) ≤ t) (ht2 : t < 2 ^ 31) (hp1 : -(2 ^ 31) ≤ p) (hp2 : p < 2 ^ 31)
    (hh1 : -(2 ^ 31) ≤ h) (hh2 : h < 2 ^ 31) :
    ∃ env' ble', set_environment_data env ble t p h true false = some (env', ble') ∧
      ∃ tr, ble'.trace = ble.trace ++ tr ∧
        countNotify tr = 3 * env.connections.length ∧ countIndicate tr = 0 := by
  rw [set_environment_data_eq env ble t p h true false ht1 ht2 hp1 hp2 hh1 hh2]
  refine ⟨_, _, rfl,
    [Call.gattsWrite env.temp_handle (le4 (t % 2 ^ 32).toNat),
      Call.gattsWrite env.pressure_handle (le4 (p % 2 ^ 32).toNat),
      Call.gattsWrite env.humidity_handle (le4 (h % 2 ^ 32).toNat)] ++
      env.connections.flatMap (perConn env true false), ?_, ?_, ?_⟩
  · simp [List.append_assoc]
  · rw [countNotify_append, countNotify_flatMap]
    simp [countNotify]
  · rw [countIndicate_append, countIndicate_flatMap]
    simp [countIndicate]

theorem c4_notify_count_witness :
    ∃ env' ble', set_environment_data env1 ble0 21 101325 45 true false = some (env', ble') ∧
      ∃ tr, ble'.trace = ble0.trace ++ tr ∧
        countNotify tr = 3 * env1.connections.length ∧ countIndicate tr = 0 :=
  c4_notify_count env1 ble0 21 101325 45 (by decide) (by decide) (by decide) (by decide)
    (by decide) (by decide)

/-- C5: publish writes all three characteristic values unconditionally —
for every notify/indicate flag combination the stored bytes equal the
packed inputs — and with both flags false it sends zero notify calls and
zero indicate calls. -/
theorem c5_unconditional_writes (env : BLEEnvironment) (ble : BLE) (t p h : Int)
    (hd : handlesDistinct env)
    (ht1 : -(2 ^ 31) ≤ t) (ht2 : t < 2 ^ 31) (hp1 : -(2 ^ 31) ≤ p) (hp2 : p < 2 ^ 31)
    (hh1 : -(2 ^ 31) ≤ h) (hh2 : h < 2 ^ 31) :
    (∀ n i : Bool, ∃ env' ble', set_environment_data env ble t p h n i = some (env', ble') ∧
      structPackI t = some (gatts_read ble' env.temp_handle) ∧
      structPackI p = some (gatts_read ble' env.pressure_handle) ∧
      structPackI h = some (gatts_read ble' env.humidity_handle)) ∧
    (∃ env' ble', set_environment_data env ble t p h false false = some (env', ble') ∧
      ∃ tr, ble'.trace = ble.trace ++ tr ∧ countNotify tr = 0 ∧ countIndicate tr = 0) := by
  obtain ⟨d1, d2, d3, d4, d5, d6⟩ := hd
  constructor
  · intro n i
    rw [set_environment_data_eq env ble t p h n i ht1 ht2 hp1 hp2 hh1 hh2]
    refine ⟨_, _, rfl, ?_, ?_, ?_⟩
    · rw [structPackI_of_range t ht1 ht2]
      simp [gatts_read, d2, d1]
    · rw [structPackI_of_range p hp1 hp2]
      simp [gatts_read, d3]
    · rw [structPackI_of_range h hh1 hh2]
      simp [gatts_read]
  · rw [set_environment_data_eq env ble t p h false false ht1 ht2 hp1 hp2 hh1 hh2]
    refine ⟨_, _, rfl,
      [Call.gattsWrite env.temp_handle (le4 (t % 2 ^ 32).toNat),
        Call.gattsWrite env.pressure_handle (le4 (p % 2 ^ 32).toNat),
        Call.gattsWrite env.humidity_handle (le4 (h % 2 ^ 32).toNat)], ?_, ?_, ?_⟩
    · simp
    · simp [countNotify]
    · simp [countIndicate]

theorem c5_unconditional_writes_witness :
    handlesDistinct env1 ∧
      (∃ env' ble', set_environment_data env1 ble0 21 101325 45 false false = some (env', ble') ∧
        ∃ tr, ble'.trace = ble0.trace ++ tr ∧ countNotify tr = 0 ∧ countIndicate tr = 0) :=
  ⟨by refine ⟨?_, ?_, ?_, ?_, ?_, ?_⟩ <;> decide,
    (c5_unconditional_writes env1 ble0 21 101325 45
      (by refine ⟨?_, ?_, ?_, ?_, ?_, ?_⟩ <;> decide)
      (by decide) (by decide) (by decide) (by decide) (by decide) (by decide)).2⟩

/-- C6: round trip — after publish, reading a numeric characteristic back
yields exactly the 4-byte little-endian two's-complement encoding of the
written integer, for every value in the representable signed 32-bit range
(negative values included), for all three numeric characteristics. -/
theorem c6_roundtrip (env : BLEEnvironment) (ble : BLE) (t p h : Int) (n i : Bool)
    (hd : handlesDistinct env)
    (ht1 : -(2 ^ 31) ≤ t) (ht2 : t < 2 ^ 31) (hp1 : -(2 ^ 31) ≤ p) (hp2 : p < 2 ^ 31)
    (hh1 : -(2 ^ 31) ≤ h) (hh2 : h < 2 ^ 31) :
    ∃ env' ble', set_environment_data env ble t p h n i = some (env', ble') ∧
      isTwosComplLE (gatts_read ble' env.temp_handle) t ∧
      isTwosComplLE (gatts_read ble' env.pressure_handle) p ∧
      isTwosComplLE (gatts_read ble' env.humidity_handle) h := by
  obtain ⟨d1, d2, d3, d4, d5, d6⟩ := hd
  rw [set_environment_data_eq env ble t p h n i ht1 ht2 hp1 hp2 hh1 hh2]
  refine ⟨_, _, rfl, ?_, ?_, ?_⟩
  · have : gatts_read
        { chars := fun vh =>
            if vh = env.humidity_handle then le4 (h % 2 ^ 32).toNat
            else if vh = env.pressure_handle then le4 (p % 2 ^ 32).toNat
            else if vh = env.temp_handle then le4 (t % 2 ^ 32).toNat
            else ble.chars vh,
          trace := ble.trace ++
            [Call.gattsWrite env.temp_handle (le4 (t % 2 ^ 32).toNat),
              Call.gattsWrite env.pressure_handle (le4 (p % 2 ^ 32).toNat),
              Call.gattsWrite env.humidity_handle (le4 (h % 2 ^ 32).toNat)] ++
            (if n || i then env.connections.flatMap (perConn env n i) else []) }
        env.temp_handle = le4 (t % 2 ^ 32).toNat := by
      simp [gatts_read, d1, d2]
    rw [this]
    exact isTwosComplLE_le4 t ht1 ht2
  · have : gatts_read
        { chars := fun vh =>
            if vh = env.humidity_handle then le4 (h % 2 ^ 32).toNat
            else if vh = env.pressure_handle then le4 (p % 2 ^ 32).toNat
            else if vh = env.temp_handle then le4 (t % 2 ^ 32).toNat
            else ble.chars vh,
          trace := ble.trace ++
            [Call.gattsWrite env.temp_handle (le4 (t % 2 ^ 32).toNat),
              Call.gattsWrite env.pressure_handle (le4 (p % 2 ^ 32).toNat),
              Call.gattsWrite env.humidity_handle (le4 (h % 2 ^ 32).toNat)] ++
            (if n || i then env.connections.flatMap (perConn env n i) else []) }
        env.pressure_handle = le4 (p % 2 ^ 32).toNat := by
      simp [gatts_read, d3]
    rw [this]
    exact isTwosComplLE_le4 p hp1 hp2
  · have : gatts_read
        { chars := fun vh =>
            if vh = env.humidity_handle then le4 (h % 2 ^ 32).toNat
            else if vh = env.pressure_handle then le4 (p % 2 ^ 32).toNat
            else if vh = env.temp_handle then le4 (t % 2 ^ 32).toNat
            else ble.chars vh,
          trace := ble.trace ++
            [Call.gattsWrite env.temp_handle (le4 (t % 2 ^ 32).toNat),
              Call.gattsWrite env.pressure_handle (le4 (p % 2 ^ 32).toNat),
              Call.gattsWrite env.humidity_handle (le4 (h % 2 ^ 32).toNat)] ++
            (if n || i then env.connections.flatMap (perConn env n i) else []) }
        env.humidity_handle = le4 (h % 2 ^ 32).toNat := by
      simp [gatts_read]
    rw [this]
    exact isTwosComplLE_le4 h hh1 hh2

theorem c6_roundtrip_witness :
    ∃ env' ble', set_environment_data env1 ble0 (-42) 101325 45 true false = some (env', ble') ∧
      isTwosComplLE (gatts_read ble' env1.temp_handle) (-42) ∧
      isTwosComplLE (gatts_read ble' env1.pressure_handle) 101325 ∧
      isTwosComplLE (gatts_read ble' env1.humidity_handle) 45 :=
  c6_roundtrip env1 ble0 (-42) 101325 45 true false
    (by refine ⟨?_, ?_, ?_, ?_, ?_, ?_⟩ <;> decide)
    (by decide) (by decide) (by decide) (by decide) (by decide) (by decide)

/-- C7: with `notify=true` and `indicate=true`, after the three writes
the stack-call trace is, connection by connection: notify temperature,
notify pressure, notify humidity, then indicate temperature, indicate
pressure, indicate humidity. -/
theorem c7_per_connection_order (env : BLEEnvironment) (ble : BLE) (t p h : Int)
    (ht1 : -(2 ^ 31) ≤ t) (ht2 : t < 2 ^ 31) (hp1 : -(2 ^ 31) ≤ p) (hp2 : p < 2 ^ 31)
    (hh1 : -(2 ^ 31) ≤ h) (hh2 : h < 2 ^ 31) :
    ∃ env' ble', set_environment_data env ble t p h true true = some (env', ble') ∧
      ble'.trace = ble.trace ++
        [Call.gattsWrite env.temp_handle (le4 (t % 2 ^ 32).toNat),
          Call.gattsWrite env.pressure_handle (le4 (p % 2 ^ 32).toNat),
          Call.gattsWrite env.humidity_handle (le4 (h % 2 ^ 32).toNat)] ++
        env.connections.flatMap (fun c =>
          [Call.gattsNotify c env.temp_handle, Call.gattsNotify c env.pressure_handle,
            Call.gattsNotify c env.humidity_handle, Call.gattsIndicate c env.temp_handle,
            Call.gattsIndicate c env.pressure_handle,
            Call.gattsIndicate c env.humidity_handle]) := by
  rw [set_environment_data_eq env ble t p h true true ht1 ht2 hp1 hp2 hh1 hh2]
  refine ⟨_, _, rfl, ?_⟩
  have hpc : perConn env true true = fun c =>
      [Call.gattsNotify c env.temp_handle, Call.gattsNotify c env.pressure_handle,
        Call.gattsNotify c env.humidity_handle, Call.gattsIndicate c env.temp_handle,
        Call.gattsIndicate c env.pressure_handle, Call.gattsIndicate c env.humidity_handle] := by
    funext c
    simp [perConn]
  simp [hpc]

theorem c7_per_connection_order_witness :
    ∃ env' ble', set_environment_data env1 ble0 21 101325 45 true true = some (env', ble') ∧
      ble'.trace = ble0.trace ++
        [Call.gattsWrite env1.temp_handle (le4 ((21 : Int) % 2 ^ 32).toNat),
          Call.gattsWrite env1.pressure_handle (le4 ((101325 : Int) % 2 ^ 32).toNat),
          Call.gattsWrite env1.humidity_handle (le4 ((45 : Int) % 2 ^ 32).toNat)] ++
        env1.connections.flatMap (fun c =>
          [Call.gattsNotify c env1.temp_handle, Call.gattsNotify c env1.pressure_handle,
            Call.gattsNotify c env1.humidity_handle, Call.gattsIndicate c env1.temp_handle,
            Call.gattsIndicate c env1.pressure_handle,
            Call.gattsIndicate c env1.humidity_handle]) :=
  c7_per_connection_order env1 ble0 21 101325 45 (by decide) (by decide) (by decide)
    (by decide) (by decide) (by decide)

/-- C10: `set_environment_data` (any arguments and flags) and `read_act`
leave the object state — the connection set and the four captured
attribute handles — unchanged whenever they return; and the event
callback leaves the object state unchanged for every event kind other
than connect and disconnect. -/
theorem c10_frame (env : BLEEnvironment) (ble : BLE) (t p h : Int) (n i : Bool) :
    (∀ env' ble', set_environment_data env ble t p h n i = some (env', ble') → env' = env) ∧
    (∀ env' ble', read_act env ble = some (env', ble') → env' = env) ∧
    (∀ e d env' ble', e ≠ IRQ_CENTRAL_CONNECT → e ≠ IRQ_CENTRAL_DISCONNECT →
      irq env ble e d = some (env', ble') → env' = env) := by
  refine ⟨?_, ?_, ?_⟩
  · intro env' ble' hsed
    rcases h1 : structPackI t with _ | bt <;>
      rcases h2 : structPackI p with _ | bp <;>
        rcases h3 : structPackI h with _ | bh <;>
          simp [set_environment_data, h1, h2, h3] at hsed
    exact hsed.1.symm
  · intro env' ble' hract
    have hz : structPackI 0 = some [0, 0, 0, 0] := by decide
    simp [read_act, hz] at hract
    exact hract.1.symm
  · intro e d env' ble' h1 h2 hirq
    rw [irq_other env ble e d h1 h2, Option.some_inj, Prod.mk.injEq] at hirq
    exact hirq.1.symm

theorem c10_frame_witness :
    (∃ r, set_environment_data env1 ble0 21 101325 45 true false = some r ∧ r.1 = env1) ∧
      (∃ r, read_act env1 ble0 = some r ∧ r.1 = env1) ∧
      (∃ r, irq env1 ble0 IRQ_GATTS_INDICATE_DONE (5, 0, 0) = some r ∧ r.1 = env1) := by
  have hc := c10_frame env1 ble0 21 101325 45 true false
  refine ⟨⟨_, rfl, hc.1 _ _ rfl⟩, ⟨_, rfl, hc.2.1 _ _ rfl⟩,
    ⟨_, rfl, hc.2.2 IRQ_GATTS_INDICATE_DONE (5, 0, 0) _ _ (by decide) (by decide) rfl⟩⟩
